import Mathlib

/-
  Shallow embedding of the strava-widget data-collection pipeline
  (src/collect-data.js, with the stats-file initialization of src/server.js).

  Modelling conventions:
  - JS numbers carrying distances are modelled as exact rationals (ℚ);
    epoch timestamps as integers (ℤ).
  - A JS object used as a string-keyed map is modelled as an association
    list in insertion order (activity-type keys are non-numeric strings,
    for which JS objects iterate in insertion order).
  - Network interactions (token refresh, activity pages) are modelled as
    explicit response inputs: an Except value for the one refresh POST and
    a function from page number to response for the activity GETs.
  - The unbounded while(true) pagination loop is modelled with explicit
    fuel; every theorem about it carries an enough-fuel hypothesis.
  - File writes are modelled as Option-valued outputs of the run
    (none = the file was not written during the run).
-/

namespace StravaWidget

/-- One activity record as consumed from the provider response:
only the fields the code reads (distance in meters, type string).
Either may be absent (undefined) in the raw JSON. -/
structure Activity where
  distance : Option ℚ
  type : Option String
deriving DecidableEq, Repr

/-- TypeStat: the per-type accumulator object { distance, count }. -/
structure TypeStat where
  distance : ℚ
  count : ℕ
deriving DecidableEq, Repr

/-- The breakdown object { total, byType } built by
calculateDistanceBreakdown; byType is a JS object, modelled as an
insertion-ordered association list. -/
structure Breakdown where
  total : ℚ
  byType : List (String × TypeStat)
deriving DecidableEq, Repr

/-- JS expression activity.type || 'Other': undefined and the empty
string are falsy, so both normalize to "Other". -/
def normType (t : Option String) : String :=
  match t with
  | none => "Other"
  | some s => if s = "" then "Other" else s

/-- JS expression (activity.distance || 0) / 1000 (meters to km);
an absent distance contributes 0. -/
def actKm (a : Activity) : ℚ :=
  a.distance.getD 0 / 1000

/-- byType[type] update of calculateDistanceBreakdown: initialize the
entry to { distance: 0, count: 0 } when absent, then add the distance
and bump the count. Insertion order of a JS object is preserved. -/
def updateType (m : List (String × TypeStat)) (t : String) (d : ℚ) :
    List (String × TypeStat) :=
  match m with
  | [] => [(t, ⟨0 + d, 0 + 1⟩)]
  | (k, s) :: rest =>
    if k = t then (k, ⟨s.distance + d, s.count + 1⟩) :: rest
    else (k, s) :: updateType rest t d

/-- Body of the forEach in calculateDistanceBreakdown. -/
def bdStep (b : Breakdown) (a : Activity) : Breakdown :=
  { total := b.total + actKm a,
    byType := updateType b.byType (normType a.type) (actKm a) }

/-- calculateDistanceBreakdown of src/collect-data.js. -/
def calculateDistanceBreakdown (activities : List Activity) : Breakdown :=
  activities.foldl bdStep { total := 0, byType := [] }

/-- calculateTotalDistance of src/collect-data.js (the legacy function). -/
def calculateTotalDistance (activities : List Activity) : ℚ :=
  (calculateDistanceBreakdown activities).total

/-- Reading a JS object map at a key, defaulting to the zero TypeStat
(the observable content of byType at one key). -/
def lookupType (m : List (String × TypeStat)) (t : String) : TypeStat :=
  match m with
  | [] => ⟨0, 0⟩
  | (k, s) :: rest => if k = t then s else lookupType rest t

lemma foldl_bdStep_total (l : List Activity) :
    ∀ b : Breakdown, (l.foldl bdStep b).total = b.total + (l.map actKm).sum := by
  induction l with
  | nil => intro b; simp
  | cons a l ih =>
    intro b
    rw [List.foldl_cons, ih]
    simp only [bdStep, List.map_cons, List.sum_cons]
    ring

lemma lookupType_updateType (m : List (String × TypeStat)) (t : String) (d : ℚ)
    (u : String) :
    lookupType (updateType m t d) u =
      if t = u then
        ⟨(lookupType m u).distance + d, (lookupType m u).count + 1⟩
      else lookupType m u := by
  induction m with
  | nil =>
    by_cases h : t = u
    · subst h; simp [updateType, lookupType]
    · simp [updateType, lookupType, h]
  | cons p rest ih =>
    obtain ⟨k, s⟩ := p
    by_cases hkt : k = t
    · subst hkt
      by_cases hku : k = u
      · subst hku; simp [updateType, lookupType]
      · simp [updateType, lookupType, hku]
    · by_cases hku : k = u
      · subst hku
        have htu : ¬ t = k := fun h => hkt h.symm
        simp [updateType, lookupType, hkt, htu]
      · simp [updateType, lookupType, hkt, hku, ih]

lemma foldl_bdStep_byType (l : List Activity) :
    ∀ (b : Breakdown) (u : String),
      lookupType (l.foldl bdStep b).byType u =
        ⟨(lookupType b.byType u).distance
            + ((l.filter (fun a => normType a.type == u)).map actKm).sum,
         (lookupType b.byType u).count
            + (l.filter (fun a => normType a.type == u)).length⟩ := by
  induction l with
  | nil => intro b u; simp
  | cons a l ih =>
    intro b u
    rw [List.foldl_cons, ih]
    by_cases h : normType a.type = u
    · subst h
      simp only [bdStep, lookupType_updateType, List.filter_cons, beq_self_eq_true,
        if_true, eq_self_iff_true, if_pos, List.map_cons, List.sum_cons,
        List.length_cons]
      rw [TypeStat.mk.injEq]
      exact ⟨by ring, by omega⟩
    · have hb : (normType a.type == u) = false := by simpa using h
      simp [bdStep, lookupType_updateType, h, hb, List.filter_cons]

/-- Fixed page size of the activity fetch (perPage in fetchActivities). -/
def perPage : ℕ := 200

/-- The while(true) pagination loop of fetchActivities, with explicit
fuel bounding the number of iterations we observe. Returns the loop's
outcome together with the list of page numbers requested, in request
order. The loop breaks on an empty page (before concatenating), breaks
after concatenating a short page, and otherwise advances to the next
page. A thrown request error carries the page list requested so far. -/
def fetchLoop (provider : ℕ → Except String (List Activity)) :
    ℕ → ℕ → List Activity → Except String (List Activity) × List ℕ
  | 0, _, _ => (Except.error "out of fuel", [])
  | fuel + 1, page, acc =>
    match provider page with
    | Except.error e => (Except.error e, [page])
    | Except.ok data =>
      if data.length = 0 then (Except.ok acc, [page])
      else if data.length < perPage then (Except.ok (acc ++ data), [page])
      else
        let r := fetchLoop provider fuel (page + 1) (acc ++ data)
        (r.1, page :: r.2)

/-- fetchActivities of src/collect-data.js: runs the pagination loop from
page 1 with an empty accumulator; the surrounding try/catch turns any
request error into an empty result list (the accumulated activities are
discarded). Returns the activities together with the pages requested. -/
def fetchActivities (provider : ℕ → Except String (List Activity)) (fuel : ℕ) :
    List Activity × List ℕ :=
  match fetchLoop provider fuel 1 [] with
  | (Except.ok acts, reqs) => (acts, reqs)
  | (Except.error _, reqs) => ([], reqs)

lemma fetchLoop_pages (provider : ℕ → Except String (List Activity))
    (pData : ℕ → List Activity) :
    ∀ (n page : ℕ) (acc : List Activity) (fuel : ℕ),
      (∀ i, i < n → provider (page + i) = Except.ok (pData (page + i))
        ∧ (pData (page + i)).length = perPage) →
      ∀ last, provider (page + n) = Except.ok last → last.length < perPage →
      n + 1 ≤ fuel →
      fetchLoop provider fuel page acc =
        (Except.ok (acc ++ ((List.range' page n).map pData).flatten ++ last),
         List.range' page (n + 1)) := by
  intro n
  induction n with
  | zero =>
    intro page acc fuel _ last hlast hshort hfuel
    obtain ⟨f, rfl⟩ : ∃ f, fuel = f + 1 := ⟨fuel - 1, by omega⟩
    rw [Nat.add_zero] at hlast
    by_cases hz : last.length = 0
    · have : last = [] := List.length_eq_zero.mp hz
      subst this
      simp [fetchLoop, hlast, List.range'_succ]
    · simp [fetchLoop, hlast, hz, hshort, List.range'_succ]
  | succ n ih =>
    intro page acc fuel hfull last hlast hshort hfuel
    obtain ⟨f, rfl⟩ : ∃ f, fuel = f + 1 := ⟨fuel - 1, by omega⟩
    obtain ⟨h0, h0len⟩ := hfull 0 (by omega)
    rw [Nat.add_zero] at h0
    rw [Nat.add_zero] at h0len
    have hnz : ¬ (pData page).length = 0 := by
      rw [h0len]; simp [perPage]
    have hnlt : ¬ (pData page).length < perPage := by rw [h0len]; omega
    have htail : ∀ i, i < n →
        provider (page + 1 + i) = Except.ok (pData (page + 1 + i))
          ∧ (pData (page + 1 + i)).length = perPage := by
      intro i hi
      have := hfull (i + 1) (by omega)
      rwa [show page + (i + 1) = page + 1 + i by omega] at this
    have hlast' : provider (page + 1 + n) = Except.ok last := by
      rwa [show page + (n + 1) = page + 1 + n by omega] at hlast
    have := ih (page + 1) (acc ++ pData page) f htail last hlast' hshort (by omega)
    simp only [fetchLoop, h0, hnz, if_neg, hnlt, ite_false, this]
    rw [List.range'_succ page (n + 1), List.range'_succ page n]
    simp [List.append_assoc]

lemma fetchLoop_error (provider : ℕ → Except String (List Activity)) (e : String) :
    ∀ (n page : ℕ) (acc : List Activity) (fuel : ℕ),
      (∀ i, i < n → ∃ data, provider (page + i) = Except.ok data
        ∧ data.length = perPage) →
      provider (page + n) = Except.error e →
      n + 1 ≤ fuel →
      fetchLoop provider fuel page acc = (Except.error e, List.range' page (n + 1)) := by
  intro n
  induction n with
  | zero =>
    intro page acc fuel _ hlast hfuel
    obtain ⟨f, rfl⟩ : ∃ f, fuel = f + 1 := ⟨fuel - 1, by omega⟩
    rw [Nat.add_zero] at hlast
    simp [fetchLoop, hlast, List.range'_succ]
  | succ n ih =>
    intro page acc fuel hfull hlast hfuel
    obtain ⟨f, rfl⟩ : ∃ f, fuel = f + 1 := ⟨fuel - 1, by omega⟩
    obtain ⟨data, h0, h0len⟩ := hfull 0 (by omega)
    rw [Nat.add_zero] at h0
    have hnz : ¬ data.length = 0 := by rw [h0len]; simp [perPage]
    have hnlt : ¬ data.length < perPage := by rw [h0len]; omega
    have htail : ∀ i, i < n → ∃ d, provider (page + 1 + i) = Except.ok d
        ∧ d.length = perPage := by
      intro i hi
      obtain ⟨d, hd, hdl⟩ := hfull (i + 1) (by omega)
      exact ⟨d, by rwa [show page + (i + 1) = page + 1 + i by omega] at hd, hdl⟩
    have hlast' : provider (page + 1 + n) = Except.error e := by
      rwa [show page + (n + 1) = page + 1 + n by omega] at hlast
    have := ih (page + 1) (acc ++ data) f htail hlast' (by omega)
    simp [fetchLoop, h0, hnz, hnlt, this, List.range'_succ]

/-- One record of athlete_tokens.json (the fields collect-data.js and the
OAuth callback in server.js use). -/
structure AthleteRecord where
  athleteId : String
  firstName : String
  lastName : String
  accessToken : String
  refreshToken : String
  expiresAt : ℤ
  connectedAt : String
deriving DecidableEq, Repr

/-- Body of a successful response to the refresh-grant POST. -/
structure RefreshResponse where
  access_token : String
  refresh_token : String
  expires_at : ℤ
deriving DecidableEq, Repr

/-- refreshAccessToken of src/collect-data.js. The one network exchange
is an explicit input (resp); the result is the token outcome (ok token or
thrown error), the record after the call (mutated in place only on a
successful refresh), and the number of network calls performed (0 on the
cached path, 1 whenever the POST is issued). -/
def refreshAccessToken (now : ℤ) (resp : Except String RefreshResponse)
    (athleteData : AthleteRecord) :
    Except String String × AthleteRecord × ℕ :=
  if now < athleteData.expiresAt then
    (Except.ok athleteData.accessToken, athleteData, 0)
  else
    match resp with
    | Except.ok r =>
      (Except.ok r.access_token,
       { athleteData with
          accessToken := r.access_token,
          refreshToken := r.refresh_token,
          expiresAt := r.expires_at }, 1)
    | Except.error e => (Except.error e, athleteData, 1)

/-- Template-literal name used for the pushed stat object. -/
def fullName (d : AthleteRecord) : String :=
  d.firstName ++ " " ++ d.lastName

/-- One entry pushed onto athleteStats in collectData. -/
structure AthleteStat where
  name : String
  distance : ℚ
  activityCount : ℕ
  byType : List (String × TypeStat)
deriving DecidableEq, Repr

/-- The per-type aggregation into activityTypeBreakdown: initialize the
global entry to zero when absent, then add the user's distance and count
for that type. -/
def addTypeStat (m : List (String × TypeStat)) (t : String) (s : TypeStat) :
    List (String × TypeStat) :=
  match m with
  | [] => [(t, ⟨0 + s.distance, 0 + s.count⟩)]
  | (k, v) :: rest =>
    if k = t then (k, ⟨v.distance + s.distance, v.count + s.count⟩) :: rest
    else (k, v) :: addTypeStat rest t s

/-- The forEach over Object.keys(breakdown.byType) in collectData, which
merges one user's byType into the global activityTypeBreakdown. -/
def mergeBreakdown (g : List (String × TypeStat))
    (userBy : List (String × TypeStat)) : List (String × TypeStat) :=
  userBy.foldl (fun acc p => addTypeStat acc p.1 p.2) g

/-- The per-run external world of one athlete: the response to the
refresh POST (if issued) and the response to each activity page GET. -/
structure AthleteEnv where
  refreshResp : Except String RefreshResponse
  pages : ℕ → Except String (List Activity)

/-- The mutable locals of the per-athlete loop in collectData, plus the
list of athlete ids the loop has iterated over. -/
structure RunAcc where
  totalDistance : ℚ
  athleteStats : List AthleteStat
  activityTypeBreakdown : List (String × TypeStat)
  tokens : List (String × AthleteRecord)
  processed : List String
deriving DecidableEq, Repr

/-- One iteration of the per-athlete loop in collectData. The try/catch
around the iteration body: a thrown refresh error skips the fetch and the
stat push, leaving only the (unchanged) record in the tokens map; only
refreshAccessToken can throw inside the body, since fetchActivities
catches its own errors. -/
def collectStep (now : ℤ) (fuel : ℕ) (env : String → AthleteEnv)
    (acc : RunAcc) (entry : String × AthleteRecord) : RunAcc :=
  let res := refreshAccessToken now (env entry.1).refreshResp entry.2
  match res.1 with
  | Except.error _ =>
    { acc with
        tokens := acc.tokens ++ [(entry.1, res.2.1)],
        processed := acc.processed ++ [entry.1] }
  | Except.ok _ =>
    let activities := (fetchActivities (env entry.1).pages fuel).1
    let breakdown := calculateDistanceBreakdown activities
    { totalDistance := acc.totalDistance + breakdown.total,
      athleteStats := acc.athleteStats ++
        [⟨fullName res.2.1, breakdown.total, activities.length, breakdown.byType⟩],
      activityTypeBreakdown :=
        mergeBreakdown acc.activityTypeBreakdown breakdown.byType,
      tokens := acc.tokens ++ [(entry.1, res.2.1)],
      processed := acc.processed ++ [entry.1] }

/-- The full per-athlete loop of collectData over the tokens map
(iteration order of Object.keys, modelled as the entry-list order). -/
def runAcc (now : ℤ) (fuel : ℕ) (env : String → AthleteEnv)
    (tokens : List (String × AthleteRecord)) : RunAcc :=
  tokens.foldl (collectStep now fuel env) ⟨0, [], [], [], []⟩

/-- The unsorted athleteStats array as it stands right before the sort. -/
def rawAthleteStats (now : ℤ) (fuel : ℕ) (env : String → AthleteEnv)
    (tokens : List (String × AthleteRecord)) : List AthleteStat :=
  (runAcc now fuel env tokens).athleteStats

/-- Insertion step of a stable descending sort on distance: the JS
athleteStats.sort((a, b) => b.distance - a.distance), which Node (ES2019)
guarantees to be a stable sort under this comparator. The element is
placed before the first element of no greater distance, so elements of
equal distance keep their original relative order. -/
def insertDesc (a : AthleteStat) : List AthleteStat → List AthleteStat
  | [] => [a]
  | b :: rest =>
    if b.distance ≤ a.distance then a :: b :: rest else b :: insertDesc a rest

/-- Stable descending-by-distance sort of the athleteStats array. -/
def sortByDistanceDesc (l : List AthleteStat) : List AthleteStat :=
  l.foldr insertDesc []

/-- JS literal 0.621371 (exact, since distances are modelled as ℚ). -/
def milesFactor : ℚ := 621371 / 1000000

/-- The stats object written to stats.json by collectData (lastUpdated
and trackingPeriod, which no claim touches, are outside the model). -/
structure Stats where
  totalDistance : ℚ
  totalDistanceMiles : ℚ
  athletes : List AthleteStat
  athleteCount : ℕ
  activityTypeBreakdown : List (String × TypeStat)
deriving DecidableEq, Repr

/-- The externally observable outcome of one collectData run: the stats
file written (none when the run wrote no stats file), the tokens file
written, and the athlete ids the per-user loop iterated over. -/
structure CollectResult where
  statsWritten : Option Stats
  tokensWritten : Option (List (String × AthleteRecord))
  processedUsers : List String
deriving DecidableEq, Repr

/-- collectData of src/collect-data.js. tokensRead is the outcome of
readTokens (JSON.parse of athlete_tokens.json): an error there is caught
by the outer try/catch after nothing has been written; an empty tokens
map returns early before any write; otherwise the loop runs over every
athlete, the tokens map is saved, stats are sorted and written. -/
def collectData (now : ℤ) (fuel : ℕ)
    (tokensRead : Except String (List (String × AthleteRecord)))
    (env : String → AthleteEnv) : CollectResult :=
  match tokensRead with
  | Except.error _ => ⟨none, none, []⟩
  | Except.ok tokens =>
    if tokens.length = 0 then ⟨none, none, []⟩
    else
      let acc := runAcc now fuel env tokens
      let sorted := sortByDistanceDesc acc.athleteStats
      ⟨some ⟨acc.totalDistance, acc.totalDistance * milesFactor, sorted,
             sorted.length, acc.activityTypeBreakdown⟩,
       some acc.tokens, acc.processed⟩

/-- The baseline stats object initializeFiles in src/server.js writes
when stats.json does not exist: { totalDistance: 0, athletes: [],
lastUpdated: null }. It has no athleteCount field. -/
structure BaselineStats where
  totalDistance : ℚ
  athletes : List AthleteStat
deriving DecidableEq, Repr

/-- Stats-file part of initializeFiles in src/server.js: writes the zero
baseline only when the stats file is absent, otherwise leaves the current
contents untouched. -/
def initializeStatsFile (statsFileExists : Bool)
    (current : Option BaselineStats) : Option BaselineStats :=
  if statsFileExists then current else some ⟨0, []⟩

/-- The per-user breakdowns that actually enter the aggregation in one
run: one Breakdown per athlete whose refresh did not throw, in iteration
order (a failed athlete contributes nothing). -/
def userBreakdowns (now : ℤ) (fuel : ℕ) (env : String → AthleteEnv)
    (tokens : List (String × AthleteRecord)) : List Breakdown :=
  tokens.filterMap (fun entry =>
    match (refreshAccessToken now (env entry.1).refreshResp entry.2).1 with
    | Except.error _ => none
    | Except.ok _ =>
      some (calculateDistanceBreakdown (fetchActivities (env entry.1).pages fuel).1))

/-- The totalDistance accumulation of collectData, isolated over a list
of per-user breakdowns. -/
def combineTotals (bs : List Breakdown) : ℚ :=
  bs.foldl (fun t b => t + b.total) 0

/-- The activityTypeBreakdown accumulation of collectData, isolated over
a list of per-user breakdowns. -/
def combineByType (bs : List Breakdown) : List (String × TypeStat) :=
  bs.foldl (fun g b => mergeBreakdown g b.byType) []

/-- Total distance recorded for one type in an association list. -/
def tdSum (m : List (String × TypeStat)) (u : String) : ℚ :=
  ((m.filter (fun p => p.1 == u)).map (fun p => p.2.distance)).sum

/-- Total count recorded for one type in an association list. -/
def tcSum (m : List (String × TypeStat)) (u : String) : ℕ :=
  ((m.filter (fun p => p.1 == u)).map (fun p => p.2.count)).sum

lemma lookupType_addTypeStat (m : List (String × TypeStat)) (t : String)
    (s : TypeStat) (u : String) :
    lookupType (addTypeStat m t s) u =
      if t = u then
        ⟨(lookupType m u).distance + s.distance,
         (lookupType m u).count + s.count⟩
      else lookupType m u := by
  induction m with
  | nil =>
    by_cases h : t = u
    · subst h; simp [addTypeStat, lookupType]
    · simp [addTypeStat, lookupType, h]
  | cons p rest ih =>
    obtain ⟨k, v⟩ := p
    by_cases hkt : k = t
    · subst hkt
      by_cases hku : k = u
      · subst hku; simp [addTypeStat, lookupType]
      · simp [addTypeStat, lookupType, hku]
    · by_cases hku : k = u
      · subst hku
        have htu : ¬ t = k := fun h => hkt h.symm
        simp [addTypeStat, lookupType, hkt, htu]
      · simp [addTypeStat, lookupType, hkt, hku, ih]

lemma lookupType_mergeBreakdown (ub : List (String × TypeStat)) :
    ∀ (g : List (String × TypeStat)) (u : String),
      lookupType (mergeBreakdown g ub) u =
        ⟨(lookupType g u).distance + tdSum ub u,
         (lookupType g u).count + tcSum ub u⟩ := by
  induction ub with
  | nil => intro g u; simp [mergeBreakdown, tdSum, tcSum]
  | cons p rest ih =>
    intro g u
    obtain ⟨t, s⟩ := p
    have hstep : mergeBreakdown g ((t, s) :: rest) =
        mergeBreakdown (addTypeStat g t s) rest := rfl
    rw [hstep, ih, lookupType_addTypeStat]
    by_cases h : t = u
    · subst h
      simp only [if_pos rfl, tdSum, tcSum, List.filter_cons, beq_self_eq_true,
        if_true, List.map_cons, List.sum_cons]
      rw [TypeStat.mk.injEq]
      exact ⟨by ring, by omega⟩
    · have hb : (t == u) = false := by simpa using h
      simp [h, tdSum, tcSum, List.filter_cons, hb]

lemma combineTotals_foldl (bs : List Breakdown) :
    ∀ q : ℚ, bs.foldl (fun t b => t + b.total) q = q + (bs.map Breakdown.total).sum := by
  induction bs with
  | nil => intro q; simp
  | cons b bs ih =>
    intro q
    rw [List.foldl_cons, ih]
    simp [List.map_cons, List.sum_cons]
    ring

lemma combineTotals_eq_sum (bs : List Breakdown) :
    combineTotals bs = (bs.map Breakdown.total).sum := by
  rw [combineTotals, combineTotals_foldl]
  ring

lemma combineByType_foldl (bs : List Breakdown) :
    ∀ (g : List (String × TypeStat)) (u : String),
      lookupType (bs.foldl (fun g b => mergeBreakdown g b.byType) g) u =
        ⟨(lookupType g u).distance + (bs.map (fun b => tdSum b.byType u)).sum,
         (lookupType g u).count + (bs.map (fun b => tcSum b.byType u)).sum⟩ := by
  induction bs with
  | nil => intro g u; simp
  | cons b bs ih =>
    intro g u
    rw [List.foldl_cons, ih, lookupType_mergeBreakdown]
    simp only [List.map_cons, List.sum_cons]
    rw [TypeStat.mk.injEq]
    exact ⟨by ring, by omega⟩

lemma combineByType_lookup (bs : List Breakdown) (u : String) :
    lookupType (combineByType bs) u =
      ⟨(bs.map (fun b => tdSum b.byType u)).sum,
       (bs.map (fun b => tcSum b.byType u)).sum⟩ := by
  rw [combineByType, combineByType_foldl]
  simp [lookupType]

lemma runAcc_foldl_totalDistance (now : ℤ) (fuel : ℕ) (env : String → AthleteEnv)
    (tokens : List (String × AthleteRecord)) :
    ∀ a : RunAcc,
      (tokens.foldl (collectStep now fuel env) a).totalDistance =
        a.totalDistance +
          ((userBreakdowns now fuel env tokens).map Breakdown.total).sum := by
  induction tokens with
  | nil => intro a; simp [userBreakdowns]
  | cons e tokens ih =>
    intro a
    rw [List.foldl_cons, ih]
    rcases hr : (refreshAccessToken now (env e.1).refreshResp e.2).1 with e' | t
    · simp [collectStep, hr, userBreakdowns, List.filterMap_cons]
    · simp only [collectStep, hr, userBreakdowns, List.filterMap_cons]
      simp [List.map_cons, List.sum_cons]
      ring

lemma runAcc_foldl_byType (now : ℤ) (fuel : ℕ) (env : String → AthleteEnv)
    (tokens : List (String × AthleteRecord)) :
    ∀ (a : RunAcc) (u : String),
      lookupType (tokens.foldl (collectStep now fuel env) a).activityTypeBreakdown u =
        ⟨(lookupType a.activityTypeBreakdown u).distance +
            ((userBreakdowns now fuel env tokens).map (fun b => tdSum b.byType u)).sum,
         (lookupType a.activityTypeBreakdown u).count +
            ((userBreakdowns now fuel env tokens).map (fun b => tcSum b.byType u)).sum⟩ := by
  induction tokens with
  | nil => intro a u; simp [userBreakdowns]
  | cons e tokens ih =>
    intro a u
    rw [List.foldl_cons, ih]
    rcases hr : (refreshAccessToken now (env e.1).refreshResp e.2).1 with e' | t
    · simp [collectStep, hr, userBreakdowns, List.filterMap_cons]
    · simp only [collectStep, hr, userBreakdowns, List.filterMap_cons,
        lookupType_mergeBreakdown, List.map_cons, List.sum_cons]
      rw [TypeStat.mk.injEq]
      exact ⟨by ring, by omega⟩

lemma runAcc_foldl_processed (now : ℤ) (fuel : ℕ) (env : String → AthleteEnv)
    (tokens : List (String × AthleteRecord)) :
    ∀ a : RunAcc,
      (tokens.foldl (collectStep now fuel env) a).processed =
        a.processed ++ tokens.map Prod.fst := by
  induction tokens with
  | nil => intro a; simp
  | cons e tokens ih =>
    intro a
    rw [List.foldl_cons, ih]
    rcases hr : (refreshAccessToken now (env e.1).refreshResp e.2).1 with e' | t <;>
      simp [collectStep, hr]

lemma mem_insertDesc (a x : AthleteStat) (l : List AthleteStat) :
    x ∈ insertDesc a l ↔ x = a ∨ x ∈ l := by
  induction l with
  | nil => simp [insertDesc]
  | cons b rest ih =>
    by_cases h : b.distance ≤ a.distance
    · simp [insertDesc, h]
    · simp only [insertDesc, h, ite_false, List.mem_cons, ih]
      tauto

lemma insertDesc_perm (a : AthleteStat) (l : List AthleteStat) :
    (insertDesc a l).Perm (a :: l) := by
  induction l with
  | nil => simp [insertDesc]
  | cons b rest ih =>
    by_cases h : b.distance ≤ a.distance
    · simp [insertDesc, h]
    · simp only [insertDesc, h, ite_false]
      exact (ih.cons b).trans (List.Perm.swap a b rest)

lemma insertDesc_pairwise (a : AthleteStat) (l : List AthleteStat)
    (hl : l.Pairwise (fun x y => y.distance ≤ x.distance)) :
    (insertDesc a l).Pairwise (fun x y => y.distance ≤ x.distance) := by
  induction l with
  | nil => simp [insertDesc]
  | cons b rest ih =>
    rw [List.pairwise_cons] at hl
    obtain ⟨hb, hrest⟩ := hl
    by_cases h : b.distance ≤ a.distance
    · simp only [insertDesc, h, ite_true]
      rw [List.pairwise_cons]
      refine ⟨?_, ?_⟩
      · intro y hy
        rcases List.mem_cons.mp hy with rfl | hy
        · exact h
        · exact le_trans (hb y hy) h
      · rw [List.pairwise_cons]
        exact ⟨hb, hrest⟩
    · simp only [insertDesc, h, ite_false]
      rw [List.pairwise_cons]
      refine ⟨?_, ih hrest⟩
      intro y hy
      rcases (mem_insertDesc a y rest).mp hy with rfl | hy
      · exact le_of_lt (lt_of_not_le h)
      · exact hb y hy

lemma sortByDistanceDesc_pairwise (l : List AthleteStat) :
    (sortByDistanceDesc l).Pairwise (fun x y => y.distance ≤ x.distance) := by
  induction l with
  | nil => simp [sortByDistanceDesc]
  | cons a l ih => exact insertDesc_pairwise a _ ih

lemma sortByDistanceDesc_perm (l : List AthleteStat) :
    (sortByDistanceDesc l).Perm l := by
  induction l with
  | nil => simp [sortByDistanceDesc]
  | cons a l ih =>
    have : sortByDistanceDesc (a :: l) = insertDesc a (sortByDistanceDesc l) := rfl
    rw [this]
    exact (insertDesc_perm a _).trans (ih.cons a)

/-- The elements of distance exactly q, in list order: equality of these
sublists between input and output is the stability property of the sort
(all such elements compare equal under the comparator). -/
def distFilter (q : ℚ) (l : List AthleteStat) : List AthleteStat :=
  l.filter (fun x => x.distance == q)

lemma distFilter_cons (q : ℚ) (x : AthleteStat) (l : List AthleteStat) :
    distFilter q (x :: l) =
      if x.distance = q then x :: distFilter q l else distFilter q l := by
  by_cases h : x.distance = q
  · have hb : (x.distance == q) = true := by simpa using h
    simp [distFilter, List.filter_cons, hb, h]
  · have hb : (x.distance == q) = false := by simpa using h
    simp [distFilter, List.filter_cons, hb, h]

lemma insertDesc_distFilter (q : ℚ) (a : AthleteStat) (l : List AthleteStat) :
    distFilter q (insertDesc a l) =
      if a.distance = q then a :: distFilter q l else distFilter q l := by
  induction l with
  | nil =>
    have hstep : insertDesc a [] = [a] := rfl
    rw [hstep, distFilter_cons]
  | cons b rest ih =>
    by_cases hba : b.distance ≤ a.distance
    · have hstep : insertDesc a (b :: rest) = a :: b :: rest := by
        simp [insertDesc, hba]
      rw [hstep, distFilter_cons]
    · have hstep : insertDesc a (b :: rest) = b :: insertDesc a rest := by
        simp [insertDesc, hba]
      have hab : a.distance < b.distance := lt_of_not_le hba
      rw [hstep, distFilter_cons, ih, distFilter_cons]
      by_cases h : a.distance = q
      · have hbq : ¬ b.distance = q := by
          intro hbq
          rw [h] at hab
          rw [hbq] at hab
          exact lt_irrefl q hab
        simp [h, hbq]
      · simp [h]

lemma sortByDistanceDesc_distFilter (q : ℚ) (l : List AthleteStat) :
    distFilter q (sortByDistanceDesc l) = distFilter q l := by
  induction l with
  | nil => simp [sortByDistanceDesc]
  | cons a l ih =>
    have hs : sortByDistanceDesc (a :: l) = insertDesc a (sortByDistanceDesc l) := rfl
    rw [hs, insertDesc_distFilter, ih, distFilter_cons]

lemma collectData_statsWritten_eq (now : ℤ) (fuel : ℕ) (env : String → AthleteEnv)
    (tokens : List (String × AthleteRecord)) (s : Stats)
    (h : (collectData now fuel (Except.ok tokens) env).statsWritten = some s) :
    s.totalDistance = (runAcc now fuel env tokens).totalDistance ∧
    s.activityTypeBreakdown = (runAcc now fuel env tokens).activityTypeBreakdown ∧
    s.athletes = sortByDistanceDesc (rawAthleteStats now fuel env tokens) := by
  by_cases hl : tokens.length = 0
  · simp [collectData, hl] at h
  · simp only [collectData, hl, ite_false] at h
    have := Option.some.inj h
    subst this
    exact ⟨rfl, rfl, rfl⟩

lemma collectData_writes (now : ℤ) (fuel : ℕ) (env : String → AthleteEnv)
    (tokens : List (String × AthleteRecord)) (hne : tokens ≠ []) :
    (collectData now fuel (Except.ok tokens) env).statsWritten.isSome = true ∧
    (collectData now fuel (Except.ok tokens) env).tokensWritten.isSome = true := by
  have hl : ¬ tokens.length = 0 := by
    simpa [List.length_eq_zero] using hne
  simp [collectData, hl]

/-- Claim C7: for every list of activity records,
breakdown(activities).total equals the sum over the list of each
activity's distance divided by 1000 (meters to kilometers), and each
activity is grouped under its activityType (unset or empty types
normalized to "Other"): the byType entry at any key u holds exactly the
distance sum and the count of the activities whose normalized type is u. -/
theorem claim7_breakdown_total_and_grouping (activities : List Activity) :
    (calculateDistanceBreakdown activities).total
        = (activities.map (fun a => a.distance.getD 0 / 1000)).sum ∧
    ∀ u : String,
      lookupType (calculateDistanceBreakdown activities).byType u =
        ⟨((activities.filter (fun a => normType a.type == u)).map
            (fun a => a.distance.getD 0 / 1000)).sum,
         (activities.filter (fun a => normType a.type == u)).length⟩ := by
  have hmap : ∀ l : List Activity,
      l.map actKm = l.map (fun a => a.distance.getD 0 / 1000) := fun _ => rfl
  constructor
  · rw [calculateDistanceBreakdown, foldl_bdStep_total, hmap]
    simp
  · intro u
    rw [calculateDistanceBreakdown, foldl_bdStep_byType, hmap]
    simp [lookupType]

/-- Claim C10: the legacy calculateTotalDistance(activities) returns
exactly calculateDistanceBreakdown(activities).total, hence also the
plain per-activity kilometer sum. -/
theorem claim10_legacy_total_equivalence (activities : List Activity) :
    calculateTotalDistance activities
        = (calculateDistanceBreakdown activities).total ∧
    calculateTotalDistance activities = (activities.map actKm).sum := by
  refine ⟨rfl, ?_⟩
  rw [calculateTotalDistance, calculateDistanceBreakdown, foldl_bdStep_total]
  simp

/-- Claim C9: when reading the credential store fails (unreadable or
malformed athlete_tokens.json), the run aborts before any processing: no
per-user loop iteration happens and neither the tokens file nor the stats
file is written. -/
theorem claim9_storage_error_fatal (now : ℤ) (fuel : ℕ)
    (env : String → AthleteEnv) (e : String) :
    collectData now fuel (Except.error e) env =
      { statsWritten := none, tokensWritten := none, processedUsers := [] } := rfl

/-- Claim C2, refuted as stated: with an empty credential store the run
writes no StatsSnapshot at all (collectData returns early before any
write), so in particular it does not write a snapshot with
totalDistanceKm = 0, athletes = [], athleteCount = 0. -/
theorem claim2_counterexample :
    (collectData 0 0 (Except.ok [])
        (fun _ => ⟨Except.error "down", fun _ => Except.error "down"⟩)).statsWritten
      = none := rfl

/-- Claim C2 as amended: a run invoked with an empty credential store
returns early, writing neither the stats snapshot nor the tokens file and
processing no users; the zero baseline snapshot (totalDistance 0, empty
athletes list, and no athleteCount field) is written by server
initialization exactly when the stats file does not yet exist, and an
existing stats file is left untouched. -/
theorem claim2_empty_store_run_writes_nothing :
    (∀ (now : ℤ) (fuel : ℕ) (env : String → AthleteEnv),
      collectData now fuel (Except.ok []) env =
        { statsWritten := none, tokensWritten := none, processedUsers := [] }) ∧
    (∀ current : Option BaselineStats,
      initializeStatsFile false current = some ⟨0, []⟩) ∧
    (∀ current : Option BaselineStats,
      initializeStatsFile true current = current) :=
  ⟨fun _ _ _ => rfl, fun _ => rfl, fun _ => rfl⟩

/-- Claim C4: pagination starts at page 1, increases by one, and stops at
the first page returning fewer records than the page size (an empty page
included): when pages 1..n are full (exactly perPage records) and page
n+1 is the first short or empty page, the fetcher requests exactly the
pages 1..n+1 and returns every record of all the pages, in order. The
quoted scenario is the instance n = 1 with an empty page 2: exactly 2
page requests, all perPage records returned. -/
theorem claim4_pagination_requests_and_records
    (provider : ℕ → Except String (List Activity))
    (pData : ℕ → List Activity) (n fuel : ℕ) (last : List Activity)
    (hfull : ∀ i, i < n → provider (1 + i) = Except.ok (pData (1 + i))
      ∧ (pData (1 + i)).length = perPage)
    (hlast : provider (1 + n) = Except.ok last)
    (hshort : last.length < perPage)
    (hfuel : n + 1 ≤ fuel) :
    fetchActivities provider fuel =
      (((List.range' 1 n).map pData).flatten ++ last, List.range' 1 (n + 1)) := by
  have h := fetchLoop_pages provider pData n 1 [] fuel hfull last hlast hshort hfuel
  simp [fetchActivities, h]

/-- Activity used by concrete scenario inputs: 1000 m of type "Run". -/
def runAct : Activity := ⟨some 1000, some "Run"⟩

/-- Provider of the C4 scenario: a full page 1, an empty page 2. -/
def c4Provider : ℕ → Except String (List Activity) :=
  fun p => if p = 1 then Except.ok (List.replicate 200 runAct) else Except.ok []

theorem claim4_witness :
    fetchActivities c4Provider 2 = (List.replicate 200 runAct, [1, 2]) := by
  have h := claim4_pagination_requests_and_records c4Provider
    (fun _ => List.replicate 200 runAct) 1 2 []
    (by
      intro i hi
      have : i = 0 := by omega
      subst this
      exact ⟨rfl, by rw [List.length_replicate, perPage]⟩)
    rfl (by decide) (by omega)
  rw [show List.range' 1 1 = [1] from rfl, show List.range' 1 2 = [1, 2] from rfl] at h
  simpa using h

lemma refreshAccessToken_error_record (now : ℤ) (resp : Except String RefreshResponse)
    (d : AthleteRecord) (e : String)
    (h : (refreshAccessToken now resp d).1 = Except.error e) :
    (refreshAccessToken now resp d).2.1 = d := by
  by_cases hc : now < d.expiresAt
  · simp [refreshAccessToken, hc] at h
  · rcases resp with e' | r
    · simp [refreshAccessToken, hc]
    · simp [refreshAccessToken, hc] at h

/-- Claim C3: when the refresh exchange fails, refreshAccessToken throws
the error with the record's accessToken, refreshToken and expiresAt
untouched; the per-user catch in collectData turns this into a skipped
athlete (nothing aggregated, record written back unchanged), and the run
still iterates every configured user and writes both files. -/
theorem claim3_refresh_failure_isolated :
    (∀ (now : ℤ) (e : String) (d : AthleteRecord),
      ¬ now < d.expiresAt →
        refreshAccessToken now (Except.error e) d = (Except.error e, d, 1)) ∧
    (∀ (now : ℤ) (fuel : ℕ) (env : String → AthleteEnv) (acc : RunAcc)
        (id : String) (d : AthleteRecord) (e : String),
      (refreshAccessToken now (env id).refreshResp d).1 = Except.error e →
        collectStep now fuel env acc (id, d) =
          { acc with tokens := acc.tokens ++ [(id, d)],
                     processed := acc.processed ++ [id] }) ∧
    (∀ (now : ℤ) (fuel : ℕ) (env : String → AthleteEnv)
        (tokens : List (String × AthleteRecord)),
      (collectData now fuel (Except.ok tokens) env).processedUsers
          = tokens.map Prod.fst ∧
      (tokens ≠ [] →
        (collectData now fuel (Except.ok tokens) env).statsWritten.isSome = true ∧
        (collectData now fuel (Except.ok tokens) env).tokensWritten.isSome = true)) := by
  refine ⟨?_, ?_, ?_⟩
  · intro now e d h
    simp [refreshAccessToken, h]
  · intro now fuel env acc id d e h
    have hrec := refreshAccessToken_error_record now (env id).refreshResp d e h
    simp only [collectStep, h, hrec]
  · intro now fuel env tokens
    constructor
    · by_cases hl : tokens.length = 0
      · have : tokens = [] := List.length_eq_zero.mp hl
        subst this
        rfl
      · simp only [collectData, hl, ite_false]
        rw [runAcc, runAcc_foldl_processed]
        rfl
    · exact fun hne => collectData_writes now fuel env tokens hne

/-- Credential record of the witness scenarios whose token is still
valid at now = 0 (expiresAt 10). -/
def wRecFresh : AthleteRecord := ⟨"1", "A", "One", "tokA", "refA", 10, "c"⟩

/-- Credential record of the witness scenarios whose token is expired at
now = 0 (expiresAt 0). -/
def wRecStale : AthleteRecord := ⟨"2", "B", "Two", "tokB", "refB", 0, "c"⟩

/-- Environment whose refresh POST always fails. -/
def wEnvRefreshFail : String → AthleteEnv :=
  fun _ => ⟨Except.error "boom", fun _ => Except.ok []⟩

theorem claim3_witness :
    refreshAccessToken 0 (Except.error "boom") wRecStale
        = (Except.error "boom", wRecStale, 1) ∧
    collectStep 0 1 wEnvRefreshFail ⟨0, [], [], [], []⟩ ("2", wRecStale)
        = ⟨0, [], [], [("2", wRecStale)], ["2"]⟩ ∧
    (collectData 0 1 (Except.ok [("2", wRecStale)]) wEnvRefreshFail).processedUsers
        = ["2"] ∧
    (collectData 0 1 (Except.ok [("2", wRecStale)]) wEnvRefreshFail).statsWritten.isSome
        = true :=
  ⟨claim3_refresh_failure_isolated.1 0 "boom" wRecStale (by decide),
   claim3_refresh_failure_isolated.2.1 0 1 wEnvRefreshFail ⟨0, [], [], [], []⟩
     "2" wRecStale "boom" rfl,
   (claim3_refresh_failure_isolated.2.2 0 1 wEnvRefreshFail [("2", wRecStale)]).1,
   ((claim3_refresh_failure_isolated.2.2 0 1 wEnvRefreshFail [("2", wRecStale)]).2
     (by simp)).1⟩

/-- Claim C5: with expiresAt strictly in the future, ensureValid returns
the stored accessToken with the record untouched and no network call;
and two immediately successive calls (same now, same provider response,
the in-place record threaded through) return the same ok token and issue
at most one network call in total, provided a successful refresh response
carries a not-yet-expired expires_at. -/
theorem claim5_cached_path_and_idempotence :
    (∀ (now : ℤ) (resp : Except String RefreshResponse) (d : AthleteRecord),
      now < d.expiresAt →
        refreshAccessToken now resp d = (Except.ok d.accessToken, d, 0)) ∧
    (∀ (now : ℤ) (resp : Except String RefreshResponse) (d : AthleteRecord)
        (t : String),
      (refreshAccessToken now resp d).1 = Except.ok t →
      (∀ r, resp = Except.ok r → now < r.expires_at) →
      (refreshAccessToken now resp (refreshAccessToken now resp d).2.1).1
          = Except.ok t ∧
      (refreshAccessToken now resp d).2.2 +
          (refreshAccessToken now resp (refreshAccessToken now resp d).2.1).2.2
        ≤ 1) := by
  constructor
  · intro now resp d h
    simp [refreshAccessToken, h]
  · intro now resp d t hok hfresh
    by_cases hc : now < d.expiresAt
    · simp only [refreshAccessToken, hc, ite_true] at hok ⊢
      exact ⟨hok, by omega⟩
    · rcases resp with e | r
      · simp [refreshAccessToken, hc] at hok
      · have hfr : now < r.expires_at := hfresh r rfl
        simp only [refreshAccessToken, hc, ite_false] at hok
        simp only [refreshAccessToken, hc, ite_false, hfr, ite_true]
        exact ⟨hok, by omega⟩

/-- Successful refresh response of the C5 witness, expiring at 5 > 0. -/
def wResp5 : Except String RefreshResponse := Except.ok ⟨"newTok", "newRef", 5⟩

theorem claim5_witness :
    refreshAccessToken 0 wResp5 wRecFresh = (Except.ok "tokA", wRecFresh, 0) ∧
    (refreshAccessToken 0 wResp5 (refreshAccessToken 0 wResp5 wRecStale).2.1).1
        = Except.ok "newTok" ∧
    (refreshAccessToken 0 wResp5 wRecStale).2.2 +
        (refreshAccessToken 0 wResp5 (refreshAccessToken 0 wResp5 wRecStale).2.1).2.2
      ≤ 1 :=
  ⟨claim5_cached_path_and_idempotence.1 0 wResp5 wRecFresh (by decide),
   (claim5_cached_path_and_idempotence.2 0 wResp5 wRecStale "newTok" rfl
     (fun r hr => by cases hr; decide)).1,
   (claim5_cached_path_and_idempotence.2 0 wResp5 wRecStale "newTok" rfl
     (fun r hr => by cases hr; decide)).2⟩

/-- Claim C8: the persisted AthleteStat list is the stable descending
sort by distance of the athleteStats array built in iteration order: it
is pairwise non-increasing in totalDistanceKm, and for every distance
value the sublist of athletes with exactly that distance is the same, in
the same order, as in the unsorted iteration-order array (stability);
the sorted list is moreover a permutation of the unsorted one. -/
theorem claim8_athletes_sorted_desc_stable :
    (∀ (now : ℤ) (fuel : ℕ) (env : String → AthleteEnv)
        (tokens : List (String × AthleteRecord)) (s : Stats),
      (collectData now fuel (Except.ok tokens) env).statsWritten = some s →
      s.athletes = sortByDistanceDesc (rawAthleteStats now fuel env tokens) ∧
      s.athletes.Pairwise (fun a b => b.distance ≤ a.distance) ∧
      ∀ q : ℚ, distFilter q s.athletes
          = distFilter q (rawAthleteStats now fuel env tokens)) ∧
    (∀ l : List AthleteStat, (sortByDistanceDesc l).Perm l) := by
  constructor
  · intro now fuel env tokens s h
    obtain ⟨-, -, hath⟩ := collectData_statsWritten_eq now fuel env tokens s h
    refine ⟨hath, ?_, ?_⟩
    · rw [hath]
      exact sortByDistanceDesc_pairwise _
    · intro q
      rw [hath, sortByDistanceDesc_distFilter]
  · exact sortByDistanceDesc_perm

/-- Second still-valid credential record of the witness scenarios. -/
def wRecFreshB : AthleteRecord := ⟨"2", "B", "Two", "tokB", "refB", 10, "c"⟩

/-- Environment where every user has no activities at all. -/
def wEnvEmptyPages : String → AthleteEnv :=
  fun _ => ⟨Except.error "unused", fun _ => Except.ok []⟩

/-- Two-user tokens map used by witness scenarios. -/
def wToks2 : List (String × AthleteRecord) :=
  [("1", wRecFresh), ("2", wRecFreshB)]

/-- Stats written by the C8 witness run (both athletes tie at 0 km, so
the iteration order "A One" before "B Two" must be preserved). -/
def wStats8 : Stats :=
  ⟨0, 0, [⟨"A One", 0, 0, []⟩, ⟨"B Two", 0, 0, []⟩], 2, []⟩

theorem claim8_witness :
    (collectData 0 1 (Except.ok wToks2) wEnvEmptyPages).statsWritten
        = some wStats8 ∧
    wStats8.athletes = sortByDistanceDesc (rawAthleteStats 0 1 wEnvEmptyPages wToks2) ∧
    distFilter 0 wStats8.athletes
        = distFilter 0 (rawAthleteStats 0 1 wEnvEmptyPages wToks2) := by
  have h : (collectData 0 1 (Except.ok wToks2) wEnvEmptyPages).statsWritten
      = some wStats8 := by
    norm_num [collectData, runAcc, collectStep, refreshAccessToken, wEnvEmptyPages,
      wToks2, wRecFresh, wRecFreshB, fetchActivities, fetchLoop,
      calculateDistanceBreakdown, bdStep, mergeBreakdown, sortByDistanceDesc,
      insertDesc, fullName, wStats8, milesFactor,
      show ("A" : String) ++ " " ++ "One" = "A One" from rfl,
      show ("B" : String) ++ " " ++ "Two" = "B Two" from rfl]
  exact ⟨h,
    (claim8_athletes_sorted_desc_stable.1 0 1 wEnvEmptyPages wToks2 wStats8 h).1,
    (claim8_athletes_sorted_desc_stable.1 0 1 wEnvEmptyPages wToks2 wStats8 h).2.2 0⟩

/-- Claim C6: combining per-user breakdowns is order-insensitive: over
any permutation of the breakdown list the accumulated global total and
the per-type distance and count sums agree; consequently two runs over
permuted token maps (same per-user worlds) write the same global
totalDistance and the same per-type sums in activityTypeBreakdown. -/
theorem claim6_combine_order_invariant :
    (∀ bs₁ bs₂ : List Breakdown, bs₁.Perm bs₂ →
      combineTotals bs₁ = combineTotals bs₂ ∧
      ∀ u : String,
        lookupType (combineByType bs₁) u = lookupType (combineByType bs₂) u) ∧
    (∀ (now : ℤ) (fuel : ℕ) (env : String → AthleteEnv)
        (toks₁ toks₂ : List (String × AthleteRecord)) (s₁ s₂ : Stats),
      toks₁.Perm toks₂ →
      (collectData now fuel (Except.ok toks₁) env).statsWritten = some s₁ →
      (collectData now fuel (Except.ok toks₂) env).statsWritten = some s₂ →
      s₁.totalDistance = s₂.totalDistance ∧
      ∀ u : String,
        lookupType s₁.activityTypeBreakdown u
          = lookupType s₂.activityTypeBreakdown u) := by
  constructor
  · intro bs₁ bs₂ hperm
    refine ⟨?_, ?_⟩
    · rw [combineTotals_eq_sum, combineTotals_eq_sum,
        (hperm.map Breakdown.total).sum_eq]
    · intro u
      rw [combineByType_lookup, combineByType_lookup, TypeStat.mk.injEq]
      exact ⟨((hperm.map fun b => tdSum b.byType u)).sum_eq,
             ((hperm.map fun b => tcSum b.byType u)).sum_eq⟩
  · intro now fuel env toks₁ toks₂ s₁ s₂ hperm h₁ h₂
    obtain ⟨ht₁, hb₁, -⟩ := collectData_statsWritten_eq now fuel env toks₁ s₁ h₁
    obtain ⟨ht₂, hb₂, -⟩ := collectData_statsWritten_eq now fuel env toks₂ s₂ h₂
    have hub : (userBreakdowns now fuel env toks₁).Perm
        (userBreakdowns now fuel env toks₂) := hperm.filterMap _
    constructor
    · rw [ht₁, ht₂, runAcc, runAcc, runAcc_foldl_totalDistance,
        runAcc_foldl_totalDistance, (hub.map Breakdown.total).sum_eq]
    · intro u
      rw [hb₁, hb₂, runAcc, runAcc, runAcc_foldl_byType, runAcc_foldl_byType,
        TypeStat.mk.injEq]
      exact ⟨by rw [((hub.map fun b => tdSum b.byType u)).sum_eq],
             by rw [((hub.map fun b => tcSum b.byType u)).sum_eq]⟩

/-- Environment of the C6 witness: user "1" has one 1000 m Run, every
other user one 2000 m Ride. -/
def wEnvC6 : String → AthleteEnv :=
  fun id =>
    if id = "1" then
      ⟨Except.error "unused", fun _ => Except.ok [⟨some 1000, some "Run"⟩]⟩
    else
      ⟨Except.error "unused", fun _ => Except.ok [⟨some 2000, some "Ride"⟩]⟩

/-- The C6 witness token map in the reversed iteration order. -/
def wToks2R : List (String × AthleteRecord) :=
  [("2", wRecFreshB), ("1", wRecFresh)]

/-- Stats written by the C6 witness run over wToks2. -/
def wStats6a : Stats :=
  ⟨3, 3 * milesFactor,
   [⟨"B Two", 2, 1, [("Ride", ⟨2, 1⟩)]⟩, ⟨"A One", 1, 1, [("Run", ⟨1, 1⟩)]⟩],
   2, [("Run", ⟨1, 1⟩), ("Ride", ⟨2, 1⟩)]⟩

/-- Stats written by the C6 witness run over wToks2R. -/
def wStats6b : Stats :=
  ⟨3, 3 * milesFactor,
   [⟨"B Two", 2, 1, [("Ride", ⟨2, 1⟩)]⟩, ⟨"A One", 1, 1, [("Run", ⟨1, 1⟩)]⟩],
   2, [("Ride", ⟨2, 1⟩), ("Run", ⟨1, 1⟩)]⟩

theorem claim6_witness :
    (collectData 0 1 (Except.ok wToks2) wEnvC6).statsWritten = some wStats6a ∧
    (collectData 0 1 (Except.ok wToks2R) wEnvC6).statsWritten = some wStats6b ∧
    wStats6a.totalDistance = wStats6b.totalDistance ∧
    lookupType wStats6a.activityTypeBreakdown "Run"
        = lookupType wStats6b.activityTypeBreakdown "Run" ∧
    lookupType wStats6a.activityTypeBreakdown "Ride"
        = lookupType wStats6b.activityTypeBreakdown "Ride" := by
  have e1 : wEnvC6 "1"
      = ⟨Except.error "unused", fun _ => Except.ok [⟨some 1000, some "Run"⟩]⟩ := rfl
  have e2 : wEnvC6 "2"
      = ⟨Except.error "unused", fun _ => Except.ok [⟨some 2000, some "Ride"⟩]⟩ := rfl
  have ha : (collectData 0 1 (Except.ok wToks2) wEnvC6).statsWritten
      = some wStats6a := by
    norm_num [collectData, runAcc, collectStep, refreshAccessToken, e1, e2, wToks2,
      wRecFresh, wRecFreshB, fetchActivities, fetchLoop, calculateDistanceBreakdown,
      bdStep, mergeBreakdown, addTypeStat, updateType,
      show normType (some "Run") = "Run" from rfl,
      show normType (some "Ride") = "Ride" from rfl,
      show ("A" : String) ++ " " ++ "One" = "A One" from rfl,
      show ("B" : String) ++ " " ++ "Two" = "B Two" from rfl,
      show ¬ ("Run" : String) = "Ride" from by decide,
      show ¬ ("Ride" : String) = "Run" from by decide,
      actKm, perPage, sortByDistanceDesc, insertDesc, fullName, wStats6a, milesFactor]
  have hb : (collectData 0 1 (Except.ok wToks2R) wEnvC6).statsWritten
      = some wStats6b := by
    norm_num [collectData, runAcc, collectStep, refreshAccessToken, e1, e2, wToks2R,
      wRecFresh, wRecFreshB, fetchActivities, fetchLoop, calculateDistanceBreakdown,
      bdStep, mergeBreakdown, addTypeStat, updateType,
      show normType (some "Run") = "Run" from rfl,
      show normType (some "Ride") = "Ride" from rfl,
      show ("A" : String) ++ " " ++ "One" = "A One" from rfl,
      show ("B" : String) ++ " " ++ "Two" = "B Two" from rfl,
      show ¬ ("Run" : String) = "Ride" from by decide,
      show ¬ ("Ride" : String) = "Run" from by decide,
      actKm, perPage, sortByDistanceDesc, insertDesc, fullName, wStats6b, milesFactor]
  have hmain := claim6_combine_order_invariant.2 0 1 wEnvC6 wToks2 wToks2R
    wStats6a wStats6b (List.Perm.swap ("2", wRecFreshB) ("1", wRecFresh) []) ha hb
  exact ⟨ha, hb, hmain.1, hmain.2 "Run", hmain.2 "Ride"⟩

/-- Claim C1 as amended: when a page request fails mid-pagination, the
partially accumulated records are discarded and fetchActivities returns
an empty list WITHOUT raising (the error is caught inside); consequently
the affected user still gets an AthleteStat pushed, with zero distance,
zero activities and an empty byType, their (unchanged or refreshed)
record is still written back, and the run completes and writes the stats
file whenever any user is configured. -/
theorem claim1_fetch_failure_discards_and_zeroes :
    (∀ (provider : ℕ → Except String (List Activity)) (e : String) (n fuel : ℕ),
      (∀ i, i < n → ∃ data, provider (1 + i) = Except.ok data
        ∧ data.length = perPage) →
      provider (1 + n) = Except.error e →
      n + 1 ≤ fuel →
      fetchActivities provider fuel = ([], List.range' 1 (n + 1))) ∧
    (∀ (now : ℤ) (fuel : ℕ) (env : String → AthleteEnv) (acc : RunAcc)
        (id : String) (d : AthleteRecord) (t : String),
      (refreshAccessToken now (env id).refreshResp d).1 = Except.ok t →
      (fetchActivities (env id).pages fuel).1 = [] →
      collectStep now fuel env acc (id, d) =
        { acc with
            athleteStats := acc.athleteStats ++
              [⟨fullName (refreshAccessToken now (env id).refreshResp d).2.1,
                0, 0, []⟩],
            tokens := acc.tokens ++
              [(id, (refreshAccessToken now (env id).refreshResp d).2.1)],
            processed := acc.processed ++ [id] }) ∧
    (∀ (now : ℤ) (fuel : ℕ) (env : String → AthleteEnv)
        (tokens : List (String × AthleteRecord)),
      tokens ≠ [] →
        (collectData now fuel (Except.ok tokens) env).statsWritten.isSome = true) := by
  refine ⟨?_, ?_, ?_⟩
  · intro provider e n fuel hfull herr hfuel
    have h := fetchLoop_error provider e n 1 [] fuel hfull herr hfuel
    simp [fetchActivities, h]
  · intro now fuel env acc id d t hok hfetch
    simp only [collectStep, hok, hfetch]
    simp [calculateDistanceBreakdown, mergeBreakdown]
  · intro now fuel env tokens hne
    exact (collectData_writes now fuel env tokens hne).1

/-- Environment of the C1 scenario: user "1" has a valid token and a
fetch that fails on page 2 after a full page 1; every other user has a
valid token and no activities. -/
def c1Env : String → AthleteEnv :=
  fun id =>
    if id = "1" then
      ⟨Except.error "unused",
       fun p => if p = 1 then Except.ok (List.replicate 200 runAct)
                else Except.error "network"⟩
    else ⟨Except.error "unused", fun _ => Except.ok []⟩

/-- Claim C1, refuted as stated: in a run where user "1"'s fetch fails
mid-pagination (page 1 returns a full page, the page 2 request errors:
two requests issued, accumulated records discarded), that user is NOT
absent from the run's AthleteStat list — the list contains "A One" (with
zero stats) alongside "B Two", because fetchActivities swallows the
error and returns an empty list instead of failing. -/
theorem claim1_counterexample :
    (fetchActivities (c1Env "1").pages 2).2 = [1, 2] ∧
    (fetchActivities (c1Env "1").pages 2).1 = [] ∧
    ((collectData 0 2 (Except.ok wToks2) c1Env).statsWritten.map
        (fun s => s.athletes.map AthleteStat.name)) = some ["A One", "B Two"] := by
  have p1 : (c1Env "1").pages 1 = Except.ok (List.replicate 200 runAct) := rfl
  have p2 : (c1Env "1").pages 2 = Except.error "network" := rfl
  have q1 : (c1Env "2").pages 1 = Except.ok [] := rfl
  have hf : fetchActivities (c1Env "1").pages 2 = ([], [1, 2]) := by
    norm_num [fetchActivities, fetchLoop, p1, p2, perPage]
  refine ⟨by rw [hf], by rw [hf], ?_⟩
  have r1 : c1Env "1" = ⟨Except.error "unused",
      fun p => if p = 1 then Except.ok (List.replicate 200 runAct)
               else Except.error "network"⟩ := rfl
  have r2 : c1Env "2" = ⟨Except.error "unused", fun _ => Except.ok []⟩ := rfl
  norm_num [collectData, runAcc, collectStep, refreshAccessToken, wToks2,
    wRecFresh, wRecFreshB, hf, r1, r2, fetchActivities, fetchLoop, perPage,
    calculateDistanceBreakdown, bdStep, mergeBreakdown, sortByDistanceDesc,
    insertDesc, fullName, milesFactor,
    show ("A" : String) ++ " " ++ "One" = "A One" from rfl,
    show ("B" : String) ++ " " ++ "Two" = "B Two" from rfl]

theorem claim1_witness :
    fetchActivities (c1Env "1").pages 2 = ([], List.range' 1 2) ∧
    collectStep 0 2 c1Env ⟨0, [], [], [], []⟩ ("1", wRecFresh) =
      ⟨0, [⟨"A One", 0, 0, []⟩], [], [("1", wRecFresh)], ["1"]⟩ ∧
    (collectData 0 2 (Except.ok wToks2) c1Env).statsWritten.isSome = true := by
  have hfetch := claim1_fetch_failure_discards_and_zeroes.1 (c1Env "1").pages
    "network" 1 2
    (by
      intro i hi
      have h0 : i = 0 := by omega
      subst h0
      exact ⟨List.replicate 200 runAct, rfl, by rw [List.length_replicate, perPage]⟩)
    rfl (by omega)
  refine ⟨hfetch, ?_,
    claim1_fetch_failure_discards_and_zeroes.2.2 0 2 c1Env wToks2 (by simp [wToks2])⟩
  have h2 := claim1_fetch_failure_discards_and_zeroes.2.1 0 2 c1Env
    ⟨0, [], [], [], []⟩ "1" wRecFresh "tokA" rfl (by rw [hfetch])
  rw [h2]
  norm_num [refreshAccessToken, wRecFresh, fullName,
    show (c1Env "1").refreshResp = Except.error "unused" from rfl,
    show ("A" : String) ++ " " ++ "One" = "A One" from rfl]

end StravaWidget
